import Mathlib

/-
Shallow embedding of the thermochem repository (src/thermochem/burcat.py and
src/thermochem/psicrometry.py).

Conventions of the embedding:
* Python floats are embedded as exact rationals (ℚ).
* A Python `raise` is the `.error` case of `Except Err`; a Python function
  that can also return the value `None` returns an `Option` inside `.ok`.
* Python object identity of `Element` instances is modelled by an extra
  `oid : Nat` field (two distinct Python objects are never `==` even when all
  their data agree, so structural equality on the Lean side plays the role of
  Python `==` as long as distinct objects carry distinct `oid`s).
* Python `for` loops over a list that is mutated while iterating are embedded
  as index-based loops with a fuel argument; the fuel passed by the wrappers
  (the length of the list) always suffices, because the cursor increases by
  one per step and the list never grows during the loop.
* `Element.so` and `Element.go` involve the transcendental `log` and are left
  out of the rational embedding; no claim needs their concrete values (the
  generic `Mixture.extensive` takes the per-species evaluator as an argument,
  which covers them abstractly).
-/

namespace Thermochem

/-- Python exception classes raised by the embedded code. -/
inductive Err where
  | valueError (msg : String)
  | attributeError
  | typeError
  | stopIteration
  | zeroDivision
  deriving DecidableEq

deriving instance DecidableEq for Except

/-- Universal gas constant R (burcat.py, line 20): 8.314472, written as an
exact fraction because decimal literals for ℚ elaborate through the
irreducible Rat.ofScientific. -/
def R : ℚ := 8314472 / 1000000

/-- Species record (burcat.py, class Element, lines 23-132).  Field names
follow the source (`Tmin_` holds the low-range coefficients, `_Tmax` the
high-range ones).  `oid` models Python object identity and has no
counterpart among the source attributes. -/
structure Element where
  oid : Nat
  formula : String
  Tmin_ : List ℚ
  _Tmax : List ℚ
  mm : ℚ
  hfr : ℚ
  elements : List (String × Int)
  deriving DecidableEq

/-- Dot product of two coefficient lists, as used by np.dot on equal-length
vectors (all call sites pass vectors of equal length). -/
def dotQ (a b : List ℚ) : ℚ := (List.zipWith (fun x y => x * y) a b).sum

/-- Element.cpo (burcat.py, lines 56-70): specific heat capacity in J/mol K.
Piecewise over the two coefficient ranges; raises ValueError outside them. -/
def Element.cpo (s : Element) (T : ℚ) : Except Err ℚ :=
  if 200 < T ∧ T ≤ 1000 then
    .ok (dotQ (s.Tmin_.take 5) [1, T, T ^ 2, T ^ 3, T ^ 4] * R)
  else if 1000 < T ∧ T < 6000 then
    .ok (dotQ (s._Tmax.take 5) [1, T, T ^ 2, T ^ 3, T ^ 4] * R)
  else .error (Err.valueError "Temperature out of range")

/-- Element.cp_ (burcat.py, lines 72-76): cpo(T) / mm.  A zero molar mass
would raise ZeroDivisionError in Python, hence the explicit check (ℚ division
by zero would silently yield 0 otherwise). -/
def Element.cp_ (s : Element) (T : ℚ) : Except Err ℚ := do
  let c ← s.cpo T
  if s.mm = 0 then throw Err.zeroDivision else pure (c / s.mm)

/-- Element.cp (burcat.py, lines 78-83): specific heat at the reference
temperature 298 K. -/
def Element.cp (s : Element) : Except Err ℚ := s.cp_ 298

/-- Element.ho (burcat.py, lines 85-95): sensible enthalpy in J/mol. -/
def Element.ho (s : Element) (T : ℚ) : Except Err ℚ :=
  if 200 < T ∧ T ≤ 1000 then
    .ok (dotQ (s.Tmin_.take 6) [1, T / 2, T ^ 2 / 3, T ^ 3 / 4, T ^ 4 / 5, 1 / T] * R * T)
  else if 1000 < T ∧ T < 6000 then
    .ok (dotQ (s._Tmax.take 6) [1, T / 2, T ^ 2 / 3, T ^ 3 / 4, T ^ 4 / 5, 1 / T] * R * T)
  else .error (Err.valueError "Temperature out of range")

/-- Element.h (burcat.py, lines 97-101): total enthalpy, cp_(T) * T. -/
def Element.h (s : Element) (T : ℚ) : Except Err ℚ := do
  let c ← s.cp_ T
  pure (c * T)

/-- Element.density (burcat.py, lines 50-54): p * mm / R / T, raising
ZeroDivisionError at T = 0. -/
def Element.density (s : Element) (p T : ℚ) : Except Err ℚ :=
  if T = 0 then .error Err.zeroDivision else .ok (p * s.mm / R / T)

/-- One composition entry of a mixture: the species slot holds `none` when
Python stored the value None there (which Elementdb.getmixturedata does for
unresolved formulas), paired with the quantity. -/
abbrev Entry := Option Element × ℚ

/-- Mixture (burcat.py, class Mixture, lines 135-333): the entry list `mix`,
the basis string `config` and the shared iterator cursor `idx`, exactly the
three attributes set by __init__. -/
structure Mixture where
  mix : List Entry
  config : String
  idx : Nat
  deriving DecidableEq

/-- Mixture() with the default argument config='vol' (burcat.py, line 171). -/
def Mixture.init : Mixture := ⟨[], "vol", 0⟩

/-- Mixture.add (burcat.py, lines 206-208): append one entry. -/
def Mixture.add (m : Mixture) (component : Option Element) (prop : ℚ) : Mixture :=
  { m with mix := m.mix ++ [(component, prop)] }

/-- Test used by Mixture.delete (burcat.py, line 214): e[0].formula == formula.
Accessing .formula on a None species raises AttributeError, handled at the
call site; here a none species simply reports no match. -/
def matchDel (formula : String) (e : Entry) : Bool :=
  match e.1 with
  | some s => decide (s.formula = formula)
  | none => false

/-- Test used by Mixture.__getitem__ (burcat.py, line 201): i == e[0].formula. -/
def matchGet (i : String) (e : Entry) : Bool :=
  match e.1 with
  | some s => decide (i = s.formula)
  | none => false

/-- Loop body of Mixture.delete (burcat.py, lines 212-216): a CPython for
loop over the list being mutated.  The iterator keeps a cursor `i`; fetching
`lst[i]` advances it, and `list.remove(e)` deletes the first entry equal to
`e`, shifting later entries left — so the entry right after a removed one is
never examined.  Fuel bounds the step count; the wrapper passes the initial
list length, which always suffices (the cursor grows by one per step and the
list never grows). -/
def deleteLoop (formula : String) : Nat → List Entry → Nat → Bool → Except Err (List Entry × Bool)
  | 0, lst, _, erased => .ok (lst, erased)
  | fuel + 1, lst, i, erased =>
    if h : i < lst.length then
      match lst[i] with
      | (none, _) => .error Err.attributeError
      | (some s, q) =>
        if s.formula = formula then
          deleteLoop formula fuel (lst.erase (some s, q)) (i + 1) true
        else
          deleteLoop formula fuel lst (i + 1) erased
    else .ok (lst, erased)

/-- Mixture.delete (burcat.py, lines 210-219): run the removal loop, then
raise ValueError("Not a component") when nothing was erased. -/
def Mixture.delete (m : Mixture) (formula : String) : Except Err Mixture := do
  let p ← deleteLoop formula m.mix.length m.mix 0 false
  if p.2 then pure { m with mix := p.1 }
  else throw (Err.valueError "Not a component")

/-- Loop of Mixture.__getitem__ for a string key (burcat.py, lines 198-204):
start from elem = (None, None), overwrite elem at every match (no break, so
the last match wins), and return elem at the end. -/
def getitemGo (i : String) : List Entry → Option Element × Option ℚ →
    Except Err (Option Element × Option ℚ)
  | [], elem => .ok elem
  | (none, _) :: _, _ => .error Err.attributeError
  | (some s, q) :: rest, elem =>
    getitemGo i rest (if i = s.formula then (some s, some q) else elem)

/-- Mixture.__getitem__ with a string argument (burcat.py, lines 194-204). -/
def Mixture.getitemStr (m : Mixture) (i : String) : Except Err (Option Element × Option ℚ) :=
  getitemGo i m.mix (none, none)

/-- Mixture.next (burcat.py, lines 184-192): return the entry at the cursor
and advance it; past the end, reset the cursor to 0 and raise StopIteration.
The state component of the result is the mixture after the call (iterator
state lives in the mixture itself, since __iter__ returns self). -/
def Mixture.next (m : Mixture) : Except Err Entry × Mixture :=
  if h : m.idx < m.mix.length then
    (.ok m.mix[m.idx], { m with idx := m.idx + 1 })
  else
    (.error Err.stopIteration, { m with idx := 0 })

/-- Repeatedly call next, collecting the produced entries until StopIteration
(the behaviour of a Python for loop over the mixture).  Fuel bounds the steps;
callers pass mix.length + 1, always enough since the cursor grows by one per
successful call. -/
def runNextN : Nat → Mixture → List Entry × Mixture
  | 0, m => ([], m)
  | fuel + 1, m =>
    match m.next with
    | (Except.ok e, m2) =>
      let p := runNextN fuel m2
      (e :: p.1, p.2)
    | (Except.error _, m2) => ([], m2)

/-- A complete Python for loop over a mixture (iter(m) returns m itself, then
next is called until StopIteration): the entries produced and the mixture
state left behind. -/
def Mixture.fullIter (m : Mixture) : List Entry × Mixture :=
  runNextN (m.mix.length + 1) m

/-- First loop of Mixture.mm and Mixture.extensive (burcat.py, lines 233-234
and 264-265): Nm as the sum of the quantities. -/
def sumQ (l : List Entry) : ℚ := l.foldl (fun acc e => acc + e.2) 0

/-- Second loop of Mixture.mm and Mixture.extensive (burcat.py, lines 236-237
and 267-268): sum of quantity * molar mass; accessing .mm on a None species
raises AttributeError. -/
def sumQMM : List Entry → ℚ → Except Err ℚ
  | [], acc => .ok acc
  | (none, _) :: _, _ => .error Err.attributeError
  | (some s, q) :: rest, acc => sumQMM rest (acc + q * s.mm)

/-- Third loop of Mixture.extensive (burcat.py, lines 272-276): sum of
quantity * molar mass * evaluator(T), where the evaluator is looked up on the
species (getattr on None raises AttributeError; the evaluator itself can
raise, which propagates). -/
def sumExt (f : Element → ℚ → Except Err ℚ) (T : ℚ) : List Entry → ℚ → Except Err ℚ
  | [], acc => .ok acc
  | (none, _) :: _, _ => .error Err.attributeError
  | (some s, q) :: rest, acc => do
    let v ← f s T
    sumExt f T rest (acc + q * s.mm * v)

/-- Mixture.mm (burcat.py, lines 221-239): quantity-weighted molar mass under
the 'vol' basis; any other basis falls off the if and returns None (embedded
as `.ok none`).  The division Mm / Nm raises ZeroDivisionError when Nm = 0. -/
def Mixture.mm (m : Mixture) : Except Err (Option ℚ) :=
  if m.config = "vol" then do
    let NmS := sumQ m.mix
    let MmS ← sumQMM m.mix 0
    if NmS = 0 then throw Err.zeroDivision
    else pure (some (MmS / NmS))
  else pure none

/-- Mixture.extensive (burcat.py, lines 250-278): the mass-fraction-weighted
average ext / Nm / Mm under the 'vol' basis; any other basis returns None
(embedded as `.ok none`).  The dynamic getattr dispatch of the source is
embedded by passing the per-species evaluator as the argument `f`.  The
divisions raise ZeroDivisionError when their divisor is zero (Mm = MmS / Nm
is computed before the third loop runs, the final division after it). -/
def Mixture.extensive (m : Mixture) (f : Element → ℚ → Except Err ℚ) (T : ℚ) :
    Except Err (Option ℚ) :=
  if m.config = "vol" then do
    let NmS := sumQ m.mix
    let MmS ← sumQMM m.mix 0
    if NmS = 0 then throw Err.zeroDivision
    else
      let Mm := MmS / NmS
      let ext ← sumExt f T m.mix 0
      if Mm = 0 then throw Err.zeroDivision
      else pure (some (ext / NmS / Mm))
  else pure none

/-- Mixture.cp_ (burcat.py, lines 280-284): extensive('cp_', T). -/
def Mixture.cp_ (m : Mixture) (T : ℚ) : Except Err (Option ℚ) :=
  m.extensive Element.cp_ T

/-- Mixture.cp (burcat.py, lines 286-292): extensive('cp_', 298.15). -/
def Mixture.cp (m : Mixture) : Except Err (Option ℚ) :=
  m.extensive Element.cp_ (29815 / 100 : ℚ)

/-- Mixture.ho (burcat.py, lines 294-298): extensive('ho', T). -/
def Mixture.ho (m : Mixture) (T : ℚ) : Except Err (Option ℚ) :=
  m.extensive Element.ho T

/-- Mixture.h (burcat.py, lines 300-304): cp_(T) * T.  When cp_ returned
None (non-'vol' basis), Python would raise TypeError multiplying None by a
float. -/
def Mixture.h (m : Mixture) (T : ℚ) : Except Err ℚ := do
  let c ← m.cp_ T
  match c with
  | some v => pure (v * T)
  | none => throw Err.typeError

/-- One phase record of the XML database, as consumed by
Elementdb.getelementdata (burcat.py, lines 424-458): the formula text, the
two coefficient ranges, the molecular weight in g/mol, hf298_div_r, and the
elemental composition. -/
structure Phase where
  formula : String
  rangeLow : List ℚ
  rangeHigh : List ℚ
  molecularWeight : ℚ
  hf298 : ℚ
  elems : List (String × Int)
  deriving DecidableEq

/-- The np.zeros(7) buffers filled by `for i, c in zip(range(7), ...)`
(burcat.py, lines 428-429, 443-448): the first min(7, len) coefficients land
in the buffer, the rest of the buffer stays 0. -/
def fill7 (l : List ℚ) : List ℚ := l.take 7 ++ List.replicate (7 - l.length) 0

/-- Elementdb (burcat.py, class Elementdb): the parsed database, embedded as
the list of phase records in document order (the nested loops of the source
iterate the phases in exactly that order). -/
structure Elementdb where
  db : List Phase
  deriving DecidableEq

/-- Elementdb.getelementdata (burcat.py, lines 424-458): return an Element
built from the first phase whose formula equals the argument; when no phase
matches, the Python function falls off the end of its loops and returns None
— there is no raise statement on that path. -/
def Elementdb.getelementdata (d : Elementdb) (formula : String) : Option Element :=
  match d.db.find? (fun p => p.formula == formula) with
  | some p =>
    some ⟨0, formula, fill7 p.rangeLow, fill7 p.rangeHigh, p.molecularWeight / 1000,
          p.hf298, p.elems⟩
  | none => none

/-- Elementdb.getmixturedata (burcat.py, lines 460-469): start from Mixture()
and add (getelementdata(formula), quantity) for each component, in order.
Nothing checks the lookup result, so an unresolved formula contributes a
(None, quantity) entry. -/
def Elementdb.getmixturedata (d : Elementdb) (components : List (String × ℚ)) : Mixture :=
  components.foldl (fun mixture comp => mixture.add (d.getelementdata comp.1) comp.2)
    Mixture.init

/-- Water triple point pressure constant (psicrometry.py, line 6). -/
def pt : ℚ := 612

/-- Water triple point temperature constant (psicrometry.py, line 7). -/
def Tt : ℚ := 27316 / 100

/-- State built by MoistAir.__init__ (psicrometry.py, lines 28-43).  The
external Water() collaborator is only stored by the constructor, never
consulted by it, so it is not part of the embedded state. -/
structure MoistAir where
  water : Element
  qwater : ℚ
  gas : Mixture
  qgas : ℚ
  w : ℚ

/-- MoistAir.__init__ (psicrometry.py, lines 28-43): look up 'H2O' in the
mixture; if the species slot is None raise ValueError("No water in this
gas"); otherwise delete 'H2O', sum the remaining quantities by iterating the
mixture, and derive w = water.mm / gas.mm * qwater / qgas (each division
raising ZeroDivisionError on a zero divisor, in evaluation order).  The
branch throwing typeError is unreachable: __getitem__ returns the species
and quantity slots both filled or both None. -/
def MoistAir.init (gas : Mixture) : Except Err MoistAir := do
  let wq ← gas.getitemStr "H2O"
  match wq with
  | (none, _) => throw (Err.valueError "No water in this gas")
  | (some water, qopt) =>
    let qwater ← match qopt with
      | some q => pure q
      | none => throw Err.typeError
    let gas1 ← gas.delete "H2O"
    let iterRes := Mixture.fullIter gas1
    let qgas := sumQ iterRes.1
    let gmmOpt ← iterRes.2.mm
    let gmm ← match gmmOpt with
      | some v => pure v
      | none => throw Err.typeError
    if gmm = 0 then throw Err.zeroDivision
    else if qgas = 0 then throw Err.zeroDivision
    else pure ⟨water, qwater, iterRes.2, qgas, water.mm / gmm * qwater / qgas⟩

/-- Modelled from the spec (section 4.3 lookupByFormula): the entry whose
species formula matches, last match winning, (none, none) when nothing
matches.  This is the specification-side description that
Mixture.getitemStr is compared against. -/
def lookupByFormulaSpec (formula : String) (l : List Entry) : Option Element × Option ℚ :=
  match l.reverse.find? (matchGet formula) with
  | some e => (e.1, some e.2)
  | none => (none, none)

/-- Net effect of one pass of the delete loop on the portion of the list from
the cursor on: a matched entry is removed and the entry immediately after it
is skipped (kept without being examined); the flag records whether anything
was removed. -/
def scanDel (formula : String) : List Entry → List Entry × Bool
  | [] => ([], false)
  | e :: rest =>
    if matchDel formula e then
      match rest with
      | [] => ([], true)
      | x :: rest2 => (x :: (scanDel formula rest2).1, true)
    else
      let p := scanDel formula rest
      (e :: p.1, p.2)

/-- Concrete phase record used to exercise the database claims. -/
def phaseO2 : Phase := ⟨"O2", [1,0,0,0,0,0,0], [1,0,0,0,0,0,0], 32, 0, [("O", 2)]⟩

/-- One-phase database for the lookup claims. -/
def db1 : Elementdb := ⟨[phaseO2]⟩

/-- Two distinct species objects sharing the formula "F" (duplicate formulas
in one mixture), for the delete claims. -/
def elC2a : Element := ⟨21, "F", [1,0,0,0,0,0,0], [1,0,0,0,0,0,0], 1, 0, []⟩

/-- Second species with formula "F"; see elC2a. -/
def elC2b : Element := ⟨22, "F", [1,0,0,0,0,0,0], [1,0,0,0,0,0,0], 1, 0, []⟩

/-- Mixture holding two adjacent entries with formula "F". -/
def mC2 : Mixture := ⟨[(some elC2a, 1), (some elC2b, 2)], "vol", 0⟩

/-- Species with unit molar mass and constant cp polynomial, for the
single-species mixture claim. -/
def sC4 : Element := ⟨4, "S4", [1,0,0,0,0,0,0], [1,0,0,0,0,0,0], 1, 0, []⟩

/-- Species for the enthalpy-formula claim. -/
def sC5 : Element := ⟨5, "S5", [1,0,0,0,0,0,0], [1,0,0,0,0,0,0], 1, 0, []⟩

/-- Single-species volumetric mixture for the enthalpy-formula claim. -/
def mC5 : Mixture := ⟨[(some sC5, 1)], "vol", 0⟩

/-- Species stored in the non-volumetric mixture below. -/
def sC6 : Element := ⟨6, "S6", [1,0,0,0,0,0,0], [1,0,0,0,0,0,0], 1, 0, []⟩

/-- Mixture whose basis is 'mass', i.e. not the supported 'vol'. -/
def mC6 : Mixture := ⟨[(some sC6, 1)], "mass", 0⟩

/-- First of two species sharing formula "G", for the lookup-by-formula claim. -/
def sC7a : Element := ⟨71, "G", [1,0,0,0,0,0,0], [1,0,0,0,0,0,0], 1, 0, []⟩

/-- Second species with formula "G". -/
def sC7b : Element := ⟨72, "G", [1,0,0,0,0,0,0], [1,0,0,0,0,0,0], 2, 0, []⟩

/-- Species with a distinct formula "HH". -/
def sC7c : Element := ⟨73, "HH", [1,0,0,0,0,0,0], [1,0,0,0,0,0,0], 3, 0, []⟩

/-- Mixture with duplicate "G" entries followed by an "HH" entry. -/
def mC7 : Mixture := ⟨[(some sC7a, 1), (some sC7b, 2), (some sC7c, 3)], "vol", 0⟩

/-- First entry of the two-entry iterator mixture. -/
def sC8a : Element := ⟨81, "A8", [1,0,0,0,0,0,0], [1,0,0,0,0,0,0], 1, 0, []⟩

/-- Second entry of the two-entry iterator mixture. -/
def sC8b : Element := ⟨82, "B8", [1,0,0,0,0,0,0], [1,0,0,0,0,0,0], 2, 0, []⟩

/-- Two-entry mixture with a fresh (zero) iterator cursor. -/
def mC8 : Mixture := ⟨[(some sC8a, 1), (some sC8b, 2)], "vol", 0⟩

/-- A dry species (formula "N2"), for the moist-air claim. -/
def sC9 : Element := ⟨9, "N2", [1,0,0,0,0,0,0], [1,0,0,0,0,0,0], 1, 0, []⟩

/-- Mixture without any "H2O" entry. -/
def gasC9 : Mixture := ⟨[(some sC9, 1)], "vol", 0⟩

/-- Binding a successful Except value applies the continuation directly. -/
theorem ok_bind {α β : Type} (a : α) (f : α → Except Err β) :
    (Except.ok a : Except Err α) >>= f = f a := rfl

/-- Folding Mixture.add over a component list appends the mapped entries to
the accumulated mixture, leaving config and cursor untouched. -/
theorem getmixturedata_go (d : Elementdb) (components : List (String × ℚ)) (m : Mixture) :
    components.foldl (fun mixture comp => mixture.add (d.getelementdata comp.1) comp.2) m =
      { m with mix := m.mix ++ components.map (fun c => (d.getelementdata c.1, c.2)) } := by
  induction components generalizing m with
  | nil => simp
  | cons c cs ih =>
    rw [List.foldl_cons, ih]
    simp [Mixture.add]

/-- Claim C1 (amended): for every formula that matches no phase of the
database, Elementdb.getelementdata returns None — a normal return, not a
NotFound error — and Elementdb.getmixturedata never fails: it returns the
mixture that pairs each lookup result (None for unresolved formulas) with
its quantity, in input order. -/
theorem claim_C1 (d : Elementdb) (formula : String) (components : List (String × ℚ))
    (h : ∀ p ∈ d.db, p.formula ≠ formula) :
    d.getelementdata formula = none ∧
    d.getmixturedata components =
      ⟨components.map (fun c => (d.getelementdata c.1, c.2)), "vol", 0⟩ := by
  constructor
  · unfold Elementdb.getelementdata
    have hfind : d.db.find? (fun p => p.formula == formula) = none := by
      rw [List.find?_eq_none]
      intro p hp
      simpa using h p hp
    rw [hfind]
  · rw [Elementdb.getmixturedata, getmixturedata_go]
    simp [Mixture.init]

/-- Claim C1 is false as stated: on the one-phase database db1, looking up
the unmatched formula "XYZ" returns None instead of failing with a NotFound
error, and building a mixture from that formula succeeds, producing a
mixture with the entry (None, 1) — neither operation fails. -/
theorem claim_C1_counterexample :
    db1.getelementdata "XYZ" = none ∧
    db1.getmixturedata [("XYZ", 1)] = ⟨[(none, 1)], "vol", 0⟩ := ⟨rfl, rfl⟩

/-- Claim C1 witness: the amended theorem applied to db1, the unmatched
formula "QQ" and the resolvable component list [("O2", 5)]. -/
theorem claim_C1_witness :
    db1.getelementdata "QQ" = none ∧
    db1.getmixturedata [("O2", 5)] =
      ⟨[(("O2" : String), (5 : ℚ))].map (fun c => (db1.getelementdata c.1, c.2)), "vol", 0⟩ :=
  claim_C1 db1 "QQ" [("O2", 5)] (by decide)

/-- When the cursor is already past the end of the list, the delete loop
returns the list and flag unchanged. -/
theorem deleteLoop_past (formula : String) (fuel : Nat) (lst : List Entry) (i : Nat) (b : Bool)
    (h : lst.length ≤ i) : deleteLoop formula fuel lst i b = .ok (lst, b) := by
  cases fuel with
  | zero => rw [deleteLoop]
  | succ fuel => rw [deleteLoop, dif_neg (by omega)]

/-- Unfolding scanDel over a non-matching head entry. -/
theorem scanDel_cons_not (formula : String) (e : Entry) (rest : List Entry)
    (hm : matchDel formula e = false) :
    scanDel formula (e :: rest) = (e :: (scanDel formula rest).1, (scanDel formula rest).2) := by
  cases rest with
  | nil => simp [scanDel, hm]
  | cons x rest2 => simp [scanDel, hm]

/-- The removal flag of scanDel is set exactly when some entry matches:
even though a matched entry makes the scan skip its successor, the first
match in the list is always reached, so the flag equals List.any. -/
theorem scanDel_any (formula : String) :
    ∀ l : List Entry, (scanDel formula l).2 = l.any (matchDel formula)
  | [] => by simp [scanDel]
  | e :: rest => by
    by_cases hm : matchDel formula e
    · cases rest with
      | nil => simp [scanDel, hm]
      | cons x rest2 => simp [scanDel, hm]
    · have hrec := scanDel_any formula rest
      rw [scanDel_cons_not formula e rest (by simp [hm])]
      simp [hrec, hm]

/-- The delete loop started at cursor position pre.length on the list
pre ++ suf leaves pre untouched and acts on suf as scanDel describes,
provided the list has no duplicate entry values (Python objects are
pairwise distinct) and every entry holds a species. -/
theorem deleteLoop_append (formula : String) (fuel : Nat) :
    ∀ (pre suf : List Entry) (b : Bool), suf.length ≤ fuel → (pre ++ suf).Nodup →
    (∀ e ∈ pre ++ suf, e.1 ≠ none) →
    deleteLoop formula fuel (pre ++ suf) pre.length b =
      .ok (pre ++ (scanDel formula suf).1, b || (scanDel formula suf).2) := by
  induction fuel with
  | zero =>
    intro pre suf b hfuel hnd hsome
    have hsuf : suf = [] := List.eq_nil_of_length_eq_zero (by omega)
    subst hsuf
    rw [deleteLoop]
    simp [scanDel]
  | succ fuel ih =>
    intro pre suf b hfuel hnd hsome
    cases suf with
    | nil =>
      rw [deleteLoop, dif_neg (by simp)]
      simp [scanDel]
    | cons e suf2 =>
      have hlen : pre.length < (pre ++ e :: suf2).length := by simp
      have hget : (pre ++ e :: suf2)[pre.length] = e := by
        rw [List.getElem_append_right (le_refl pre.length)]
        simp
      rcases e with ⟨es, q⟩
      cases es with
      | none =>
        have := hsome (none, q) (List.mem_append_right _ (List.mem_cons_self _ _))
        simp at this
      | some s =>
        rw [deleteLoop, dif_pos hlen, hget]
        show (if s.formula = formula then
                deleteLoop formula fuel ((pre ++ (some s, q) :: suf2).erase (some s, q))
                  (pre.length + 1) true
              else deleteLoop formula fuel (pre ++ (some s, q) :: suf2) (pre.length + 1) b)
            = _
        by_cases hm : s.formula = formula
        · rw [if_pos hm]
          have hnotpre : (some s, q) ∉ pre := by
            rcases List.nodup_append.mp hnd with ⟨-, -, hdisj⟩
            intro hin
            exact hdisj hin (List.mem_cons_self _ _)
          have herase : (pre ++ (some s, q) :: suf2).erase (some s, q) = pre ++ suf2 := by
            rw [List.erase_append_right _ hnotpre, List.erase_cons_head]
          rw [herase]
          cases suf2 with
          | nil =>
            rw [deleteLoop_past formula fuel (pre ++ []) (pre.length + 1) true (by simp)]
            simp [scanDel, matchDel, hm]
          | cons x rest2 =>
            have hsub : (pre ++ x :: rest2).Sublist (pre ++ (some s, q) :: x :: rest2) :=
              List.Sublist.append_left (List.Sublist.cons _ (List.Sublist.refl _)) pre
            have hstep : pre ++ x :: rest2 = (pre ++ [x]) ++ rest2 := by simp
            have hil : pre.length + 1 = (pre ++ [x]).length := by simp
            rw [hstep, hil,
                ih (pre ++ [x]) rest2 true (by simp at hfuel ⊢; omega)
                  (by rw [← hstep]; exact hsub.nodup hnd)
                  (fun e he => hsome e (hsub.subset (hstep ▸ he)))]
            simp [scanDel, matchDel, hm]
        · rw [if_neg hm]
          have hstep : pre ++ (some s, q) :: suf2 = (pre ++ [(some s, q)]) ++ suf2 := by simp
          have hil : pre.length + 1 = (pre ++ [(some s, q)]).length := by simp
          rw [hstep, hil,
              ih (pre ++ [(some s, q)]) suf2 b (by simp at hfuel ⊢; omega)
                (by rw [← hstep]; exact hnd)
                (fun e he => hsome e (hstep ▸ he))]
          rw [scanDel_cons_not formula (some s, q) suf2 (by simp [matchDel, hm])]
          simp

/-- Claim C2 (amended): for a mixture of pairwise-distinct species-record
entries, Mixture.delete removes the matched entries reached by its scan and
raises the NotFound ValueError exactly when no entry matches; but because
entries are removed from the list while it is iterated, the entry
immediately after each removed entry is skipped, so (for example) the second
of two adjacent entries with the target formula survives — delete does not
always remove ALL matching entries. -/
theorem claim_C2 (m : Mixture) (formula : String) (hnd : m.mix.Nodup)
    (hsome : ∀ e ∈ m.mix, e.1 ≠ none) :
    m.delete formula =
      (if (scanDel formula m.mix).2 then
        Except.ok { m with mix := (scanDel formula m.mix).1 }
       else Except.error (Err.valueError "Not a component")) ∧
    (scanDel formula m.mix).2 = m.mix.any (matchDel formula) := by
  constructor
  · have hl := deleteLoop_append formula m.mix.length [] m.mix false (le_refl _)
      (by rw [List.nil_append]; exact hnd) (by rw [List.nil_append]; exact hsome)
    simp only [List.nil_append, List.length_nil, Bool.false_or] at hl
    rw [Mixture.delete, hl, ok_bind]
    cases hsc : (scanDel formula m.mix).2 <;> simp [hsc] <;> rfl
  · exact scanDel_any formula m.mix

/-- Claim C2 is false as stated: deleting "F" from the mixture mC2, whose
two entries both carry formula "F", succeeds but leaves the second "F" entry
in place instead of removing all matching entries. -/
theorem claim_C2_counterexample :
    elC2a.formula = "F" ∧ elC2b.formula = "F" ∧
    mC2.delete "F" = Except.ok ⟨[(some elC2b, 2)], "vol", 0⟩ := ⟨rfl, rfl, rfl⟩

/-- Claim C2 witness: the amended theorem applied to the concrete mixture
mC2 and formula "F". -/
theorem claim_C2_witness :
    mC2.delete "F" =
      (if (scanDel "F" mC2.mix).2 then
        Except.ok { mC2 with mix := (scanDel "F" mC2.mix).1 }
       else Except.error (Err.valueError "Not a component")) ∧
    (scanDel "F" mC2.mix).2 = mC2.mix.any (matchDel "F") :=
  claim_C2 mC2 "F" (by decide) (by decide)

/-- Claim C3: Element.cpo evaluates the dot product of the first 5 low-range
coefficients with [1, T, T^2, T^3, T^4] scaled by R when 200 < T ≤ 1000 (so
T = 1000 takes the low-range branch), the same with the first 5 high-range
coefficients when 1000 < T < 6000, and raises the out-of-range ValueError
for T ≤ 200 or T ≥ 6000. -/
theorem claim_C3 (n : Nat) (fm : String) (a0 a1 a2 a3 a4 a5 a6 b0 b1 b2 b3 b4 b5 b6 mv hv : ℚ)
    (el : List (String × Int)) (T : ℚ) :
    (200 < T ∧ T ≤ 1000 →
      Element.cpo ⟨n, fm, [a0,a1,a2,a3,a4,a5,a6], [b0,b1,b2,b3,b4,b5,b6], mv, hv, el⟩ T
        = .ok ((a0 + a1 * T + a2 * T ^ 2 + a3 * T ^ 3 + a4 * T ^ 4) * R)) ∧
    (1000 < T ∧ T < 6000 →
      Element.cpo ⟨n, fm, [a0,a1,a2,a3,a4,a5,a6], [b0,b1,b2,b3,b4,b5,b6], mv, hv, el⟩ T
        = .ok ((b0 + b1 * T + b2 * T ^ 2 + b3 * T ^ 3 + b4 * T ^ 4) * R)) ∧
    (T ≤ 200 ∨ 6000 ≤ T →
      Element.cpo ⟨n, fm, [a0,a1,a2,a3,a4,a5,a6], [b0,b1,b2,b3,b4,b5,b6], mv, hv, el⟩ T
        = .error (Err.valueError "Temperature out of range")) := by
  have hva : dotQ (List.take 5 [a0,a1,a2,a3,a4,a5,a6]) [1, T, T ^ 2, T ^ 3, T ^ 4]
      = a0 + a1 * T + a2 * T ^ 2 + a3 * T ^ 3 + a4 * T ^ 4 := by
    simp [dotQ, List.take]
    try ring
  have hvb : dotQ (List.take 5 [b0,b1,b2,b3,b4,b5,b6]) [1, T, T ^ 2, T ^ 3, T ^ 4]
      = b0 + b1 * T + b2 * T ^ 2 + b3 * T ^ 3 + b4 * T ^ 4 := by
    simp [dotQ, List.take]
    try ring
  refine ⟨fun h => ?_, fun h => ?_, fun h => ?_⟩
  · simp only [Element.cpo, if_pos h, hva]
  · have h1 : ¬(200 < T ∧ T ≤ 1000) := fun hc => by linarith [h.1, h.2, hc.1, hc.2]
    simp only [Element.cpo, if_neg h1, if_pos h, hvb]
  · have h1 : ¬(200 < T ∧ T ≤ 1000) := by
      rcases h with h | h <;> exact fun hc => by linarith [hc.1, hc.2]
    have h2 : ¬(1000 < T ∧ T < 6000) := by
      rcases h with h | h <;> exact fun hc => by linarith [hc.1, hc.2]
    simp only [Element.cpo, if_neg h1, if_neg h2]

attribute [local semireducible] Rat.add Rat.mul Rat.inv Rat.sub in
/-- Claim C3 witness: the theorem applied at the boundary temperature 1000
(low branch), at 2000 (high branch) and at 200 (excluded). -/
theorem claim_C3_witness :
    (Element.cpo ⟨3, "W", [1,2,0,0,0,0,0], [3,0,0,0,0,0,0], 1, 0, []⟩ 1000
      = .ok ((1 + 2 * 1000 + 0 * 1000 ^ 2 + 0 * 1000 ^ 3 + 0 * 1000 ^ 4) * R)) ∧
    (Element.cpo ⟨3, "W", [1,2,0,0,0,0,0], [3,0,0,0,0,0,0], 1, 0, []⟩ 2000
      = .ok ((3 + 0 * 2000 + 0 * 2000 ^ 2 + 0 * 2000 ^ 3 + 0 * 2000 ^ 4) * R)) ∧
    (Element.cpo ⟨3, "W", [1,2,0,0,0,0,0], [3,0,0,0,0,0,0], 1, 0, []⟩ 200
      = .error (Err.valueError "Temperature out of range")) :=
  ⟨(claim_C3 3 "W" 1 2 0 0 0 0 0 3 0 0 0 0 0 0 1 0 [] 1000).1 ⟨by norm_num, by norm_num⟩,
   (claim_C3 3 "W" 1 2 0 0 0 0 0 3 0 0 0 0 0 0 1 0 [] 2000).2.1 ⟨by norm_num, by norm_num⟩,
   (claim_C3 3 "W" 1 2 0 0 0 0 0 3 0 0 0 0 0 0 1 0 [] 200).2.2 (Or.inl (by norm_num))⟩

/-- Claim C4: a volumetric mixture holding the single entry (s, q) with
q > 0 has the molar mass of s, and its specific heat at any temperature
where s.cp\_ succeeds is exactly the species value (the extensive weighted
average degenerates). -/
theorem claim_C4 (s : Element) (q T c : ℚ) (hq : 0 < q) (hmm : 0 < s.mm)
    (hc : s.cp_ T = .ok c) :
    (Mixture.mk [(some s, q)] "vol" 0).mm = .ok (some s.mm) ∧
    (Mixture.mk [(some s, q)] "vol" 0).cp_ T = .ok (some c) := by
  have hq0 : q ≠ 0 := ne_of_gt hq
  have hmm0 : s.mm ≠ 0 := ne_of_gt hmm
  have hdiv : q * s.mm / q = s.mm := mul_div_cancel_left₀ _ hq0
  constructor
  · simp [Mixture.mm, sumQ, sumQMM, hq0, hdiv]
  · have hqm : q * s.mm ≠ 0 := mul_ne_zero hq0 hmm0
    simp [Mixture.cp_, Mixture.extensive, sumQ, sumQMM, sumExt, hc, hq0, hdiv, hqm, ok_bind,
      mul_div_cancel_left₀ c hqm]
    have hval : q * s.mm * c / q / s.mm = c := by
      field_simp
      try ring
    rw [hval]
    rfl

attribute [local semireducible] Rat.add Rat.mul Rat.inv Rat.sub in
/-- Claim C4 witness: the theorem applied to the unit-molar-mass species sC4
with quantity 2 at temperature 300. -/
theorem claim_C4_witness :
    (Mixture.mk [(some sC4, 2)] "vol" 0).mm = .ok (some sC4.mm) ∧
    (Mixture.mk [(some sC4, 2)] "vol" 0).cp_ 300 = .ok (some R) :=
  claim_C4 sC4 2 300 R (by norm_num) (by decide) (by decide)

/-- Claim C5: mass enthalpy is computed as specific heat times temperature —
Element.h(T) = cp\_(T) * T and Mixture.h(T) = cp\_(T) * T — the re-scaled
specific-heat value, not the integral-based sensible enthalpy. -/
theorem claim_C5 (s : Element) (m : Mixture) (T c d : ℚ) :
    (s.cp_ T = .ok c → s.h T = .ok (c * T)) ∧
    (m.cp_ T = .ok (some d) → m.h T = .ok (d * T)) := by
  constructor
  · intro h
    unfold Element.h
    rw [h]
    rfl
  · intro h
    unfold Mixture.h
    rw [h]
    rfl

attribute [local semireducible] Rat.add Rat.mul Rat.inv Rat.sub in
/-- Claim C5 witness: the theorem applied to the species sC5 and the mixture
mC5 at temperature 300, where cp\_ evaluates to R. -/
theorem claim_C5_witness :
    sC5.h 300 = .ok (R * 300) ∧ mC5.h 300 = .ok (R * 300) :=
  ⟨(claim_C5 sC5 mC5 300 R R).1 (by decide), (claim_C5 sC5 mC5 300 R R).2 (by decide)⟩

/-- Claim C6 (amended): a mixture whose basis is not 'vol' does not fail
when an aggregate property is requested; Mixture.mm and every
Mixture.extensive property fall through the basis check and return the None
sentinel (a normal return, no error raised). -/
theorem claim_C6 (m : Mixture) (f : Element → ℚ → Except Err ℚ) (T : ℚ)
    (h : m.config ≠ "vol") :
    m.mm = .ok none ∧ m.extensive f T = .ok none := by
  constructor
  · simp only [Mixture.mm, if_neg h]
    rfl
  · simp only [Mixture.extensive, if_neg h]
    rfl

/-- Claim C6 is false as stated: on the concrete mixture mC6 with basis
'mass', both mm and the extensive specific heat return None successfully
instead of being rejected with an error. -/
theorem claim_C6_counterexample :
    mC6.mm = Except.ok none ∧ mC6.extensive Element.cp_ 300 = Except.ok none := ⟨rfl, rfl⟩

/-- Claim C6 witness: the amended theorem applied to mC6 with the sensible
enthalpy evaluator at temperature 400. -/
theorem claim_C6_witness :
    mC6.mm = Except.ok none ∧ mC6.extensive Element.ho 400 = Except.ok none :=
  claim_C6 mC6 Element.ho 400 (by decide)

/-- The getitem loop returns the last matching entry of the scanned list, or
its accumulator when nothing matches, provided every entry holds a species. -/
theorem getitemGo_eq (i : String) (l : List Entry) (acc : Option Element × Option ℚ)
    (h : ∀ e ∈ l, e.1 ≠ none) :
    getitemGo i l acc = .ok (match l.reverse.find? (matchGet i) with
      | some e => (e.1, some e.2)
      | none => acc) := by
  induction l generalizing acc with
  | nil => simp [getitemGo]
  | cons e rest ih =>
    rcases e with ⟨es, q⟩
    cases es with
    | none =>
      have := h (none, q) (List.mem_cons_self _ _)
      simp at this
    | some s =>
      have hrest : ∀ e ∈ rest, e.1 ≠ none := fun e he => h e (List.mem_cons_of_mem _ he)
      rw [show getitemGo i ((some s, q) :: rest) acc =
            getitemGo i rest (if i = s.formula then (some s, some q) else acc) from rfl,
          ih _ hrest]
      congr 1
      rw [List.reverse_cons, List.find?_append]
      cases hfind : rest.reverse.find? (matchGet i) with
      | some e => simp [Option.or]
      | none =>
        by_cases hi : i = s.formula
        · simp [hfind, Option.or, List.find?, matchGet, hi]
        · simp [hfind, Option.or, List.find?, matchGet, hi]

/-- Claim C7: string lookup on a mixture of species-record entries performs
a linear scan in which every match overwrites the result, so the LAST entry
whose formula equals the key is returned, and (None, None) is returned
without an error when nothing matches — exactly the lookupByFormulaSpec
description. -/
theorem claim_C7 (m : Mixture) (formula : String) (h : ∀ e ∈ m.mix, e.1 ≠ none) :
    m.getitemStr formula = .ok (lookupByFormulaSpec formula m.mix) := by
  rw [Mixture.getitemStr, getitemGo_eq formula m.mix (none, none) h, lookupByFormulaSpec]

/-- Claim C7 witness: the theorem applied to the mixture mC7 whose first two
entries share formula "G"; the specification lookup indeed selects the
second (last) of them. -/
theorem claim_C7_witness :
    mC7.getitemStr "G" = .ok (lookupByFormulaSpec "G" mC7.mix) ∧
    lookupByFormulaSpec "G" mC7.mix = (some sC7b, some 2) :=
  ⟨claim_C7 mC7 "G" (by decide), rfl⟩

/-- Running the iterator with enough fuel yields the entries from the
current cursor position to the end, and leaves the cursor reset to 0. -/
theorem runNextN_eq (fuel : Nat) (m : Mixture) (h : m.mix.length - m.idx < fuel) :
    runNextN fuel m = (m.mix.drop m.idx, { m with idx := 0 }) := by
  induction fuel generalizing m with
  | zero => omega
  | succ fuel ih =>
    rw [runNextN]
    by_cases hidx : m.idx < m.mix.length
    · rw [Mixture.next, dif_pos hidx]
      have ih2 := ih { m with idx := m.idx + 1 } (by simp; omega)
      show (m.mix[m.idx] :: (runNextN fuel { m with idx := m.idx + 1 }).1,
            (runNextN fuel { m with idx := m.idx + 1 }).2)
          = (m.mix.drop m.idx, { m with idx := 0 })
      rw [ih2, List.drop_eq_getElem_cons hidx]
    · rw [Mixture.next, dif_neg hidx]
      rw [List.drop_eq_nil_of_le (by omega)]

/-- Claim C8 (amended): a full iteration pass over a mixture whose cursor is
at 0 yields exactly the composition entries in insertion order and leaves
the cursor reset to 0, so iteration restarts from the first entry after a
COMPLETED pass; but the cursor is shared mutable state, so an iteration
started after a partial pass resumes mid-sequence instead of restarting. -/
theorem claim_C8 (m : Mixture) (h : m.idx = 0) :
    m.fullIter = (m.mix, { m with idx := 0 }) := by
  have hr := runNextN_eq (m.mix.length + 1) m (by omega)
  rw [Mixture.fullIter, hr, h, List.drop_zero]

/-- Claim C8 is false as stated: after consuming one entry of the two-entry
mixture mC8 and abandoning that iteration, a new iteration yields only the
second entry, not all entries from the first. -/
theorem claim_C8_counterexample :
    mC8.mix = [(some sC8a, 1), (some sC8b, 2)] ∧
    (Mixture.fullIter (mC8.next).2).1 = [(some sC8b, 2)] := ⟨rfl, rfl⟩

/-- Claim C8 witness: the amended theorem applied to the fresh mixture mC8;
the pass returns all entries and the final state equals mC8 itself. -/
theorem claim_C8_witness : mC8.fullIter = (mC8.mix, mC8) :=
  claim_C8 mC8 rfl

/-- Claim C9: constructing MoistAir from a mixture of species-record entries
none of which has formula "H2O" fails with the ValueError "No water in this
gas" rather than defaulting; hence construction can only succeed when a
water entry is present. -/
theorem claim_C9 (gas : Mixture) (hw : ∀ e ∈ gas.mix, e.1 ≠ none)
    (h : ∀ e ∈ gas.mix, matchGet "H2O" e = false) :
    MoistAir.init gas = .error (Err.valueError "No water in this gas") := by
  have hfind : gas.mix.reverse.find? (matchGet "H2O") = none := by
    rw [List.find?_eq_none]
    intro e he
    simp [h e (List.mem_reverse.mp he)]
  have hget : gas.getitemStr "H2O" = .ok (none, none) := by
    rw [Mixture.getitemStr, getitemGo_eq _ _ _ hw, hfind]
  rw [MoistAir.init, hget]
  rfl

/-- Claim C9 witness: the theorem applied to the water-free mixture gasC9. -/
theorem claim_C9_witness :
    MoistAir.init gasC9 = .error (Err.valueError "No water in this gas") :=
  claim_C9 gasC9 (by decide) (by decide)

/-- Claim C10: the mixture-level reference specific heat Mixture.cp
evaluates the extensive specific heat at 298.15 K while the species-level
reference Element.cp evaluates the species specific heat at 298 K, and the
two reference temperatures differ (298 < 298.15). -/
theorem claim_C10 :
    (∀ m : Mixture, m.cp = m.extensive Element.cp_ (29815 / 100 : ℚ)) ∧
    (∀ s : Element, s.cp = s.cp_ 298) ∧ (298 : ℚ) < 29815 / 100 :=
  ⟨fun _ => rfl, fun _ => rfl, by norm_num⟩

end Thermochem
